import Mathlib

/-!
Verification development for the z-cite document ingestion and semantic
retrieval pipeline.  The Python modules `db.py`, `search.py`, `zotero.py`
and `document.py` are shallowly embedded below: dictionaries become
structures, Python `str` values become `String` (or `List Char` where we
reason about individual characters), floats become `ℚ`, and fallible
store operations become `Except`-valued fields of an abstract store.
-/

namespace ZCite

/-! ## Python-level helpers -/

/-- Characters stripped by Python `str.strip()` (ASCII whitespace). -/
def isPyWS (c : Char) : Bool :=
  c == ' ' || c == '\t' || c == '\n' || c == '\r' || c == '\u000B' || c == '\u000C'

/-- Python `str.strip()`: drop leading and trailing whitespace. -/
def pyStrip (l : List Char) : List Char :=
  ((l.dropWhile isPyWS).reverse.dropWhile isPyWS).reverse

/-- Python `int()` applied to a (rational-valued) float: truncation toward
zero, i.e. `Int.div` of numerator by denominator. -/
def pyInt (q : ℚ) : ℤ :=
  Int.tdiv q.num q.den

/-- `startsWith p s` holds when `p` is an initial segment of `s`
(Python `str.startswith`). -/
def startsWith : List Char → List Char → Bool
  | [], _ => true
  | _ :: _, [] => false
  | p :: ps, s :: ss => p == s && startsWith ps ss

/-- `containsSeq pat s` holds when `pat` occurs contiguously somewhere in
`s` (Python `pat in s`). -/
def containsSeq (pat : List Char) : List Char → Bool
  | [] => startsWith pat []
  | c :: cs => startsWith pat (c :: cs) || containsSeq pat cs

/-- Python `s.split(sep, 1)` restricted to the informative case: returns
the parts before and after the first occurrence of `sep`, or `none` when
`sep` does not occur (in which case Python returns the single part `[s]`). -/
def splitOnce (sep : List Char) : List Char → Option (List Char × List Char)
  | [] => if startsWith sep [] then some ([], ([] : List Char).drop sep.length) else none
  | c :: cs =>
    if startsWith sep (c :: cs) then some ([], (c :: cs).drop sep.length)
    else (splitOnce sep cs).map (fun p => (c :: p.1, p.2))

/-! ## Data model of the vector store (`db.py`)

Document metadata as written by `DocumentProcessor.process_document`:
`title`, `authors`, `publication_date`, `document_type`, `library_id`.
Fields read back with `.get(key, default)` are modelled as `Option`. -/

structure DocMeta where
  library_id : String
  title : Option String
  authors : List String
  publication_date : Option String
  document_type : Option String
deriving DecidableEq

/-- One entry of the `chunks` collection, together with its distance to the
(fixed) query under the store's embedding; ChromaDB returns query matches
in ascending-distance order, so `Store.chunks` is kept in that order. -/
structure ChunkEntry where
  id : String
  document_id : String
  text : List Char
  page_number : Option Int
  section_label : Option String
  distance : ℚ
deriving DecidableEq

/-- The persistent store as seen by one query: the `documents` collection
(id and metadata, insertion order) and the `chunks` collection in
ascending-distance order for the modelled query. -/
structure Store where
  documents : List (String × DocMeta)
  chunks : List ChunkEntry

/-- A processed search result as assembled by
`ChromaDBManager.search_chunks` (chunk fields joined with the parent
document's metadata; `document_metadata = none` models the empty dict used
when the document is missing). -/
structure SearchResult where
  chunk_id : String
  document_id : String
  text : List Char
  page_number : Option Int
  section_label : Option String
  document_metadata : Option DocMeta
  similarity : ℚ
deriving DecidableEq

/-- `db.py` lines 148-155: for each requested library id, collect the ids
of documents whose metadata has that `library_id`, concatenated in
request order. -/
def libraryDocs (store : Store) (libs : List String) : List String :=
  (libs.map (fun lib =>
    ((store.documents.filter (fun d => d.2.library_id == lib)).map (fun d => d.1)))).flatten

/-- `chunks_collection.query(..., n_results, where)`: the nearest
`n` chunks satisfying the optional document-id filter. -/
def chunksQuery (store : Store) (n : Nat) (whereIds : Option (List String)) :
    List ChunkEntry :=
  (match whereIds with
   | none => store.chunks
   | some ids => store.chunks.filter (fun c => ids.contains c.document_id)).take n

/-- `ChromaDBManager.search_chunks` (`db.py` lines 127-199): build the
where-clause from `library_ids` (left as no filter when the list is falsy
or when no document matched), query the chunk collection, then keep the
results with `1 - distance ≥ threshold`, joining each with its parent
document's metadata. -/
def searchChunks (store : Store) (n : Nat) (threshold : ℚ)
    (library_ids : Option (List String)) : List SearchResult :=
  let whereIds : Option (List String) :=
    match library_ids with
    | none => none
    | some libs =>
      if libs.isEmpty then none
      else
        let docs := libraryDocs store libs
        if docs.isEmpty then none else some docs
  (chunksQuery store n whereIds).filterMap (fun c =>
    let similarity := 1 - c.distance
    if similarity < threshold then none
    else some {
      chunk_id := c.id
      document_id := c.document_id
      text := c.text
      page_number := c.page_number
      section_label := c.section_label
      document_metadata :=
        (store.documents.find? (fun d => d.1 == c.document_id)).map (fun d => d.2)
      similarity := similarity })

/-! ## `SearchManager.search` (`search.py` lines 24-53)

Python `list.sort(key=..., reverse=True)` is the stable descending sort:
output sorted descending by the key, ties keeping their input order.  A
stable sort is uniquely determined by those properties, so we embed it as
the insertion sort that places each element before the first strictly
smaller one. -/

def insertDesc (x : SearchResult) : List SearchResult → List SearchResult
  | [] => [x]
  | y :: ys =>
    if y.similarity ≤ x.similarity then x :: y :: ys else y :: insertDesc x ys

def sortDesc : List SearchResult → List SearchResult
  | [] => []
  | x :: xs => insertDesc x (sortDesc xs)

/-- `SearchManager.search`: delegate to the store search, then sort the
results by similarity, highest first (stable). -/
def search (store : Store) (n : Nat) (threshold : ℚ)
    (library_ids : Option (List String)) : List SearchResult :=
  sortDesc (searchChunks store n threshold library_ids)

/-! ## `SearchManager.format_results` (`search.py` lines 55-101) -/

structure FormattedResult where
  title : String
  authors : String
  similarity : ℤ
  text : List Char
  document_id : String
  chunk_id : String
  page_number : Option Int
  section_label : Option String
  publication_date : Option String
  document_type : Option String
deriving DecidableEq

/-- Formatting of one result: title and authors with defaults, similarity
as `int(similarity * 100)`, text truncated to `text[:497] + "..."` when
longer than 500 characters, selected metadata carried through. -/
def formatOne (r : SearchResult) : FormattedResult :=
  let authorsList : List String :=
    match r.document_metadata with
    | none => []
    | some m => m.authors
  { title := (r.document_metadata.bind (fun m => m.title)).getD "Untitled Document"
    authors := if authorsList.isEmpty then "Unknown Author"
               else String.intercalate ", " authorsList
    similarity := pyInt (r.similarity * 100)
    text := if 500 < r.text.length then r.text.take 497 ++ ('.' :: '.' :: '.' :: []) else r.text
    document_id := r.document_id
    chunk_id := r.chunk_id
    page_number := r.page_number
    section_label := r.section_label
    publication_date := r.document_metadata.bind (fun m => m.publication_date)
    document_type := r.document_metadata.bind (fun m => m.document_type) }

def formatResults (rs : List SearchResult) : List FormattedResult :=
  rs.map formatOne

/-! ## Cached-OCR artifact format (`zotero.py` lines 272-361) -/

/-- The separator written between the artifact header and the OCR text:
`"-" * 80`. -/
def sepLine : List Char := List.replicate 80 '-'

/-- The header block written by `store_ocr_as_attachment` before the
separator: four `key: value`-style lines, each ending in a newline.  The
version hash, processing timestamp and document key vary per call and are
kept abstract. -/
def headerBlock (version processed docKey : String) : List Char :=
  "Z-Cite OCR Text\n".data ++
  "Version: ".data ++ version.data ++ ['\n'] ++
  "Processed: ".data ++ processed.data ++ ['\n'] ++
  "Document: ".data ++ docKey.data ++ ['\n']

/-- Full artifact content written by `store_ocr_as_attachment`
(`zotero.py` lines 330-337): header block, 80-dash separator, a blank
line, then the OCR text verbatim. -/
def storeArtifactContent (version processed docKey : String) (ocrText : List Char) :
    List Char :=
  headerBlock version processed docKey ++ sepLine ++ ('\n' :: '\n' :: []) ++ ocrText

/-- Text-extraction half of `download_and_parse_ocr_attachment`
(`zotero.py` lines 298-305): split at the first 80-dash separator; when it
occurs, `strip` everything after it, otherwise return the whole content. -/
def parseOcrText (content : List Char) : List Char :=
  match splitOnce sepLine content with
  | some p => pyStrip p.2
  | none => content

/-- The literal `"Version:"` searched for in the artifact header. -/
def vtag : List Char := "Version:".data

/-- Python `line.replace("Version:", "")`: delete every occurrence of the
tag. -/
def removeAllTag (s : List Char) : List Char :=
  match s with
  | [] => []
  | c :: cs =>
    if startsWith vtag (c :: cs) then removeAllTag (cs.drop (vtag.length - 1))
    else c :: removeAllTag cs
termination_by s.length
decreasing_by
  · simp only [List.length_cons, List.length_drop]
    omega
  · simp only [List.length_cons]
    omega

/-- Python `s.split("\n")`. -/
def splitNl : List Char → List (List Char)
  | [] => [[]]
  | c :: cs =>
    match splitNl cs with
    | [] => [[]]
    | h :: t => if c == '\n' then [] :: h :: t else (c :: h) :: t

/-- First line starting with `"Version:"`, with the tag removed and
stripped; empty when no such line exists. -/
def findVersionLine : List (List Char) → List Char
  | [] => []
  | l :: ls => if startsWith vtag l then pyStrip (removeAllTag l) else findVersionLine ls

/-- Version-extraction half of `download_and_parse_ocr_attachment`
(`zotero.py` lines 291-296): scan the first 10 lines for a
`Version:` line. -/
def parseOcrVersion (content : List Char) : List Char :=
  findVersionLine ((splitNl content).take 10)

/-- `download_and_parse_ocr_attachment` over an abstract download outcome:
the whole body is wrapped in `try/except`, so any failure (network,
decode) yields the pair of empty strings; on success the content is parsed
into (text, version hash). -/
def downloadAndParseOcr (dl : Except String (List Char)) : List Char × List Char :=
  match dl with
  | .error _ => ([], [])
  | .ok content => (parseOcrText content, parseOcrVersion content)

/-! ## Fallible view of the store (`db.py`), for the error-propagation
claim.  Each primitive collection operation may raise (modelled as
`Except.error`); the manager methods are embedded with exactly the
`try/except` blocks present in the source. -/

structure StoreE where
  libraries_get : Except String (List (String × String))
  documents_get_all : Except String (List (String × DocMeta))
  chunks_get_all : Except String (List ChunkEntry)
  documents_get_where : String → Except String (List String)
  documents_get_by_id : String → Except String (Option DocMeta)
  chunks_query : Nat → Option (List String) → Except String (List ChunkEntry)

/-- `ChromaDBManager.get_libraries` (`db.py` lines 201-221): the
collection read is wrapped in `try/except` returning `[]`; the result
loop that follows is pure. -/
def getLibrariesE (s : StoreE) : Except String (List (String × String)) :=
  match s.libraries_get with
  | .error _ => .ok []
  | .ok rs => .ok (rs.map (fun r => (r.1, r.2)))

/-- `ChromaDBManager.get_statistics` (`db.py` lines 223-245): three
collection reads inside one `try`, counts returned; any failure degrades
to zero statistics. -/
def getStatisticsE (s : StoreE) : Except String (Nat × Nat × Nat) :=
  match s.libraries_get, s.documents_get_all, s.chunks_get_all with
  | .ok ls, .ok ds, .ok cs => .ok (ls.length, ds.length, cs.length)
  | _, _, _ => .ok (0, 0, 0)

/-- `ChromaDBManager.search_chunks` in the fallible view: the body has no
`try/except`, so every store error propagates through the monadic bind. -/
def searchChunksE (s : StoreE) (n : Nat) (threshold : ℚ)
    (library_ids : Option (List String)) : Except String (List SearchResult) := do
  let whereIds : Option (List String) ←
    match library_ids with
    | none => pure none
    | some libs =>
      if libs.isEmpty then pure none
      else do
        let docLists ← libs.mapM s.documents_get_where
        let docs := docLists.flatten
        pure (if docs.isEmpty then none else some docs)
  let results ← s.chunks_query n whereIds
  results.foldlM (fun acc c => do
    let similarity := 1 - c.distance
    if similarity < threshold then pure acc
    else do
      let dm ← s.documents_get_by_id c.document_id
      pure (acc ++ [{
        chunk_id := c.id
        document_id := c.document_id
        text := c.text
        page_number := c.page_number
        section_label := c.section_label
        document_metadata := dm
        similarity := similarity : SearchResult }])) ([] : List SearchResult)

/-! ## Document pipeline (`document.py`) -/

/-- Per-document environment for `DocumentProcessor.process_document`:
the processing flags, what the source system holds for this document, and
the outcomes of the fallible collaborator calls. -/
structure DocEnv where
  use_stored_ocr : Bool
  always_rerun_ocr : Bool
  store_ocr : Bool
  has_ocr_attachment : Bool
  cached_download : Except String (List Char)
  has_pdf_attachment : Bool
  download_ok : Bool
  ocr_result : Except String (List Char)
  add_raises : Bool

/-- Outcome of the `try` body guarding the downloaded PDF
(`document.py` lines 146-157). -/
inductive PdfBody where
  | earlyFalse : PdfBody
  | raised : String → PdfBody
  | gotText : List Char → PdfBody
deriving DecidableEq

/-- The `try ... finally` block of `process_document` (`document.py`
lines 146-161), entered with the temporary file just created.  Returns
the body outcome together with whether the temporary file still exists
after the `finally` clause ran.  `store_ocr_as_attachment` catches its own
errors and returns a boolean, so it cannot raise here. -/
def pdfBranch (env : DocEnv) : PdfBody × Bool :=
  let tempExists := true
  let bodyOut : PdfBody × Bool :=
    if !env.download_ok then (PdfBody.earlyFalse, false)
    else
      match env.ocr_result with
      | .error e => (PdfBody.raised e, tempExists)
      | .ok text => (PdfBody.gotText text, tempExists)
  (bodyOut.1, if bodyOut.2 then false else bodyOut.2)

/-- Result of one `process_document` run: the returned boolean, whether a
temporary file was created, whether it still exists at return, whether the
PDF-extraction fallback branch was entered, and the text of the chunk
written to the store (`none` when processing failed before that point). -/
structure ProcResult where
  success : Bool
  temp_created : Bool
  temp_exists : Bool
  pdf_branch : Bool
  chunk_text : Option (List Char)
deriving DecidableEq

/-- `DocumentProcessor.process_document` (`document.py` lines 111-185):
resolve cached OCR text, fall back to PDF download + OCR when the cached
text is `None` (or a rerun is forced), then persist the document and a
single chunk holding the text.  A raise in the persist step is caught by
the outer `except`, returning `False`. -/
def processDocument (env : DocEnv) : ProcResult :=
  let cachedText : Option (List Char) :=
    if env.use_stored_ocr && !env.always_rerun_ocr then
      if env.has_ocr_attachment then some (downloadAndParseOcr env.cached_download).1
      else none
    else none
  if cachedText.isNone || env.always_rerun_ocr then
    if !env.has_pdf_attachment then
      { success := false, temp_created := false, temp_exists := false,
        pdf_branch := true, chunk_text := none }
    else
      let out := pdfBranch env
      match out.1 with
      | PdfBody.earlyFalse =>
        { success := false, temp_created := true, temp_exists := out.2,
          pdf_branch := true, chunk_text := none }
      | PdfBody.raised _ =>
        { success := false, temp_created := true, temp_exists := out.2,
          pdf_branch := true, chunk_text := none }
      | PdfBody.gotText text =>
        if env.add_raises then
          { success := false, temp_created := true, temp_exists := out.2,
            pdf_branch := true, chunk_text := none }
        else
          { success := true, temp_created := true, temp_exists := out.2,
            pdf_branch := true, chunk_text := some text }
  else
    if env.add_raises then
      { success := false, temp_created := false, temp_exists := false,
        pdf_branch := false, chunk_text := none }
    else
      { success := true, temp_created := false, temp_exists := false,
        pdf_branch := false, chunk_text := cachedText }

/-! ## `DocumentProcessor.process_library` (`document.py` lines 63-109) -/

/-- One library document together with the outcome of processing it:
`Except.error` models the progress callback or `process_document` raising,
`Except.ok b` the boolean returned by `process_document`. -/
structure LibDoc where
  title : String
  outcome : Except String Bool

/-- `documents[:limit]` applied only when a limit was given and positive. -/
def applyLimit (docs : List LibDoc) (limit : Option Int) : List LibDoc :=
  match limit with
  | none => docs
  | some l => if 0 < l then docs.take l.toNat else docs

/-- One iteration of the `process_library` loop (`document.py` lines
93-107): on a `True` return the processed count grows by one; on a `False`
return a `Failed to process` message is appended; on a raise an
`Error processing` message is appended and the loop continues. -/
def libStep (acc : Nat × List String) (d : LibDoc) : Nat × List String :=
  match d.outcome with
  | .ok true => (acc.1 + 1, acc.2)
  | .ok false => (acc.1, acc.2 ++ ["Failed to process " ++ d.title])
  | .error e => (acc.1, acc.2 ++ ["Error processing " ++ d.title ++ ": " ++ e])

/-- `process_library`: returns `(total, processed, errors)` after folding
`libStep` over the (possibly limited) document list. -/
def processLibrary (docs : List LibDoc) (limit : Option Int) :
    Nat × Nat × List String :=
  let ds := applyLimit docs limit
  let r := ds.foldl libStep ((0 : Nat), ([] : List String))
  (ds.length, r.1, r.2)

/-! ## Further Python string helpers used in statements -/

/-- The three-character ellipsis marker appended by `format_results`. -/
def ellipsis : List Char := ('.' :: '.' :: '.' :: [])

/-- Python `s.endswith(suf)`. -/
def pyEndsWith (s suf : List Char) : Bool := startsWith suf.reverse s.reverse

/-! ## Concrete example data for witnesses and counterexamples -/

def exMeta : DocMeta :=
  { library_id := "A", title := some "T", authors := ["X"],
    publication_date := none, document_type := none }

def exChunk : ChunkEntry :=
  { id := "c1", document_id := "d1", text := "hello".data,
    page_number := some 1, section_label := none, distance := 0 }

def exStore : Store :=
  { documents := [("d1", exMeta)], chunks := [exChunk] }

def exResult : SearchResult :=
  { chunk_id := "c1", document_id := "d1", text := "hello".data,
    page_number := some 1, section_label := none,
    document_metadata := some exMeta, similarity := 1 }

/-- A store whose chunk query raises: used to exhibit propagation out of
`search_chunks`. -/
def badStore : StoreE :=
  { libraries_get := .ok []
    documents_get_all := .ok []
    chunks_get_all := .ok []
    documents_get_where := fun _ => .ok []
    documents_get_by_id := fun _ => .ok none
    chunks_query := fun _ _ => .error "io error" }

def c3res : SearchResult :=
  { chunk_id := "c", document_id := "d", text := [], page_number := none,
    section_label := none, document_metadata := none, similarity := 999/1000 }

/-- A result whose (short) text already ends in an ellipsis. -/
def c8res : SearchResult :=
  { chunk_id := "c", document_id := "d", text := ellipsis, page_number := none,
    section_label := none, document_metadata := none, similarity := 1 }

/-- A result with a 501-character text, one over the truncation limit. -/
def c8long : SearchResult :=
  { chunk_id := "c", document_id := "d", text := List.replicate 501 'a',
    page_number := none, section_label := none, document_metadata := none,
    similarity := 1 }

/-- Environment of a document whose cached-OCR artifact exists but whose
download fails. -/
def c10env : DocEnv :=
  { use_stored_ocr := true, always_rerun_ocr := false, store_ocr := true,
    has_ocr_attachment := true, cached_download := .error "io",
    has_pdf_attachment := true, download_ok := true, ocr_result := .ok [],
    add_raises := false }

/-- An OCR text that itself contains an 80-dash line and has no leading or
trailing whitespace. -/
def c4text : List Char := 'a' :: '\n' :: (sepLine ++ ('\n' :: 'b' :: []))

/-! ## Lemmas about the stable descending sort -/

lemma insertDesc_perm (x : SearchResult) (l : List SearchResult) :
    (insertDesc x l).Perm (x :: l) := by
  induction l with
  | nil => simp [insertDesc]
  | cons y ys ih =>
    by_cases h : y.similarity ≤ x.similarity
    · simp [insertDesc, h]
    · simp only [insertDesc, if_neg h]
      exact (ih.cons y).trans (List.Perm.swap x y ys)

lemma sortDesc_perm (l : List SearchResult) : (sortDesc l).Perm l := by
  induction l with
  | nil => simp [sortDesc]
  | cons x xs ih => exact (insertDesc_perm x (sortDesc xs)).trans (ih.cons x)

lemma mem_insertDesc {x z : SearchResult} {l : List SearchResult}
    (h : z ∈ insertDesc x l) : z = x ∨ z ∈ l := by
  have := (insertDesc_perm x l).mem_iff.mp h
  simpa using this

lemma insertDesc_pairwise {x : SearchResult} {l : List SearchResult}
    (h : List.Pairwise (fun a b => b.similarity ≤ a.similarity) l) :
    List.Pairwise (fun a b => b.similarity ≤ a.similarity) (insertDesc x l) := by
  induction l with
  | nil => simp [insertDesc]
  | cons y ys ih =>
    rcases List.pairwise_cons.mp h with ⟨hy, hys⟩
    by_cases hc : y.similarity ≤ x.similarity
    · simp only [insertDesc, if_pos hc]
      refine List.pairwise_cons.mpr ⟨?_, h⟩
      intro z hz
      rcases List.mem_cons.mp hz with rfl | hz
      · exact hc
      · exact le_trans (hy z hz) hc
    · simp only [insertDesc, if_neg hc]
      refine List.pairwise_cons.mpr ⟨?_, ih hys⟩
      intro z hz
      rcases mem_insertDesc hz with rfl | hz
      · exact le_of_not_le hc
      · exact hy z hz

lemma sortDesc_pairwise (l : List SearchResult) :
    List.Pairwise (fun a b => b.similarity ≤ a.similarity) (sortDesc l) := by
  induction l with
  | nil => simp [sortDesc]
  | cons x xs ih => exact insertDesc_pairwise ih

lemma insertDesc_filter_pos {x : SearchResult} {v : ℚ} (l : List SearchResult)
    (hx : x.similarity = v) :
    (insertDesc x l).filter (fun r => r.similarity == v) =
      x :: l.filter (fun r => r.similarity == v) := by
  have hpx : (x.similarity == v) = true := by simp [hx]
  induction l with
  | nil => simp [insertDesc, List.filter_cons, hpx]
  | cons y ys ih =>
    by_cases hc : y.similarity ≤ x.similarity
    · simp only [insertDesc, if_pos hc, List.filter_cons, hpx, if_true]
    · have hyv : (y.similarity == v) = false := by
        simp only [beq_eq_false_iff_ne, ne_eq]
        intro hEq
        exact hc (le_of_eq (hx ▸ hEq))
      simp [insertDesc, if_neg hc, List.filter_cons, hyv, ih]

lemma insertDesc_filter_neg {x : SearchResult} {v : ℚ} (l : List SearchResult)
    (hx : ¬ x.similarity = v) :
    (insertDesc x l).filter (fun r => r.similarity == v) =
      l.filter (fun r => r.similarity == v) := by
  have hpx : (x.similarity == v) = false := by simp [hx]
  induction l with
  | nil => simp [insertDesc, List.filter_cons, hpx]
  | cons y ys ih =>
    by_cases hc : y.similarity ≤ x.similarity
    · simp [insertDesc, if_pos hc, List.filter_cons, hpx]
    · simp [insertDesc, if_neg hc, List.filter_cons, ih]

lemma sortDesc_filter (l : List SearchResult) (v : ℚ) :
    (sortDesc l).filter (fun r => r.similarity == v) =
      l.filter (fun r => r.similarity == v) := by
  induction l with
  | nil => rfl
  | cons x xs ih =>
    by_cases hx : x.similarity = v
    · rw [sortDesc, insertDesc_filter_pos _ hx, ih, List.filter_cons]
      simp [hx]
    · rw [sortDesc, insertDesc_filter_neg _ hx, ih, List.filter_cons]
      simp [hx]

/-! ## Threshold filtering -/

lemma searchChunks_threshold {store : Store} {n : Nat} {t : ℚ}
    {libs : Option (List String)} {r : SearchResult}
    (h : r ∈ searchChunks store n t libs) : t ≤ r.similarity := by
  simp only [searchChunks] at h
  rcases List.mem_filterMap.mp h with ⟨c, _, hf⟩
  by_cases hlt : 1 - c.distance < t
  · simp [hlt] at hf
  · simp only [if_neg hlt] at hf
    have : r.similarity = 1 - c.distance := by
      cases hf
      rfl
    rw [this]
    exact le_of_not_lt hlt

/-- C5: every result returned by `searchChunks` — and hence by `search`,
which only reorders them — has similarity at least the threshold `t`;
results below the threshold are discarded. -/
theorem searchChunks_respects_threshold (store : Store) (n : Nat) (t : ℚ)
    (libs : Option (List String)) :
    (∀ r ∈ searchChunks store n t libs, t ≤ r.similarity) ∧
    (∀ r ∈ search store n t libs, t ≤ r.similarity) := by
  constructor
  · intro r hr
    exact searchChunks_threshold hr
  · intro r hr
    have hr' : r ∈ sortDesc (searchChunks store n t libs) := hr
    exact searchChunks_threshold ((sortDesc_perm (searchChunks store n t libs)).subset hr')

/-- C6: `search` returns exactly the store-returned results (a
permutation), sorted descending by similarity, and stably: for every
similarity value, the results carrying it appear in the same order as the
store returned them. -/
theorem search_sorted_stable (store : Store) (n : Nat) (t : ℚ)
    (libs : Option (List String)) :
    (search store n t libs).Perm (searchChunks store n t libs) ∧
    List.Pairwise (fun a b => b.similarity ≤ a.similarity) (search store n t libs) ∧
    ∀ v : ℚ, (search store n t libs).filter (fun r => r.similarity == v) =
      (searchChunks store n t libs).filter (fun r => r.similarity == v) :=
  ⟨sortDesc_perm _, sortDesc_pairwise _, fun v => sortDesc_filter _ v⟩

theorem searchChunks_respects_threshold_witness :
    exResult ∈ search exStore 10 (7/10) none ∧ (7/10 : ℚ) ≤ exResult.similarity :=
  ⟨by with_unfolding_all decide,
   (searchChunks_respects_threshold exStore 10 (7/10) none).2 exResult
     (by with_unfolding_all decide)⟩

/-! ## The library-id filter (claim C1) -/

/-- C1 counterexample: in `exStore` no document belongs to library `"B"`,
yet searching with `library_ids = ["B"]` does not return zero results —
the empty document-id list yields no where-clause and the search runs
unfiltered. -/
theorem searchChunks_empty_filter_counterexample :
    (∀ d ∈ exStore.documents, ¬ d.2.library_id = "B") ∧
    ("B" :: []) ≠ ([] : List String) ∧
    searchChunks exStore 10 (7/10) (some ("B" :: [])) ≠ [] := by
  refine ⟨by decide, by decide, by with_unfolding_all decide⟩

/-- C1 (amended): when `library_ids` is given, the matching document ids
are resolved first; if at least one document matches, the chunk search is
restricted to chunks referencing those documents (which all belong to the
requested libraries); but when no document matches any given library the
filter is dropped and the call behaves exactly like an unfiltered search. -/
theorem searchChunks_library_filter (store : Store) (n : Nat) (t : ℚ)
    (libs : List String) :
    (libraryDocs store libs = [] →
      searchChunks store n t (some libs) = searchChunks store n t none) ∧
    (libraryDocs store libs ≠ [] →
      ∀ r ∈ searchChunks store n t (some libs),
        r.document_id ∈ libraryDocs store libs) ∧
    (∀ did ∈ libraryDocs store libs,
      ∃ m, (did, m) ∈ store.documents ∧ m.library_id ∈ libs) := by
  refine ⟨?_, ?_, ?_⟩
  · intro h
    simp only [searchChunks]
    by_cases he : libs.isEmpty
    · simp [he]
    · simp [he, h]
  · intro h r hr
    have he : libs.isEmpty = false := by
      rcases libs with _ | ⟨a, as⟩
      · exact absurd rfl h
      · rfl
    simp only [searchChunks, he, Bool.false_eq_true, if_false,
      List.isEmpty_eq_true, h, if_neg h] at hr
    rcases List.mem_filterMap.mp hr with ⟨c, hc, hf⟩
    have hrid : r.document_id = c.document_id := by
      by_cases hlt : 1 - c.distance < t
      · simp [hlt] at hf
      · simp only [if_neg hlt] at hf
        cases hf
        rfl
    have hc' : c ∈ store.chunks.filter
        (fun c => (libraryDocs store libs).contains c.document_id) :=
      List.take_subset _ _ hc
    have := (List.mem_filter.mp hc').2
    rw [hrid]
    simpa using this
  · intro did hdid
    rcases List.mem_flatten.mp hdid with ⟨ids, hids, hmem⟩
    rcases List.mem_map.mp hids with ⟨lib, hlib, rfl⟩
    rcases List.mem_map.mp hmem with ⟨d, hd, rfl⟩
    have hd' := List.mem_filter.mp hd
    refine ⟨d.2, ?_, ?_⟩
    · exact hd'.1
    · have : d.2.library_id = lib := by simpa using hd'.2
      rw [this]
      exact hlib

theorem searchChunks_library_filter_witness :
    libraryDocs exStore ("A" :: []) ≠ [] ∧
    exResult.document_id ∈ libraryDocs exStore ("A" :: []) :=
  ⟨by decide,
   (searchChunks_library_filter exStore 10 (7/10) ("A" :: [])).2.1 (by decide)
     exResult (by with_unfolding_all decide)⟩

/-! ## Error propagation at the store boundary (claim C2) -/

/-- C2 counterexample: a store-level I/O error raised inside
`search_chunks` propagates to the caller as an exception instead of being
caught and degraded to an empty result list. -/
theorem searchChunksE_propagates_counterexample :
    searchChunksE badStore 10 (7/10) none = .error "io error" := rfl

/-- C2 (amended): `get_libraries` and `get_statistics` wrap their store
reads in `try/except` and degrade every store-level failure to an empty
list / zero statistics, never surfacing an exception; `search_chunks` has
no such handler (see the counterexample). -/
theorem storeReads_never_propagate (s : StoreE) :
    (∃ v, getLibrariesE s = .ok v) ∧ (∃ w, getStatisticsE s = .ok w) := by
  constructor
  · unfold getLibrariesE
    cases s.libraries_get with
    | error e => exact ⟨[], rfl⟩
    | ok rs => exact ⟨_, rfl⟩
  · unfold getStatisticsE
    cases s.libraries_get <;> cases s.documents_get_all <;>
      cases s.chunks_get_all <;> exact ⟨_, rfl⟩

/-! ## Similarity percentage formatting (claim C3) -/

/-- C3 counterexample: for similarity `0.999` the formatted percentage is
`int(0.999 * 100) = 99`, while the nearest integer to `99.9` is `100`. -/
theorem formatOne_round_counterexample :
    (formatOne c3res).similarity = 99 ∧
    round (c3res.similarity * 100) = 100 ∧
    (formatOne c3res).similarity ≠ round (c3res.similarity * 100) := by
  with_unfolding_all decide

/-- C3 (amended): the formatted similarity is Python
`int(similarity * 100)`, truncation toward zero; for the nonnegative
similarities produced by the pipeline this is the floor of
`similarity * 100`, not the nearest integer. -/
theorem formatOne_similarity_floor (r : SearchResult) (h : 0 ≤ r.similarity) :
    (formatOne r).similarity = ⌊r.similarity * 100⌋ := by
  have h100 : (0:ℚ) ≤ r.similarity * 100 := by positivity
  have hf : (formatOne r).similarity = pyInt (r.similarity * 100) := rfl
  rw [hf, pyInt, Rat.floor_def]
  exact Int.tdiv_eq_ediv (Rat.num_nonneg.mpr h100) (Int.natCast_nonneg _)

theorem formatOne_similarity_floor_witness :
    (0:ℚ) ≤ exResult.similarity ∧ (formatOne exResult).similarity = 100 := by
  refine ⟨by decide, ?_⟩
  rw [formatOne_similarity_floor exResult (by decide)]
  with_unfolding_all decide

/-! ## Text truncation in `format_results` (claim C8) -/

lemma startsWith_append (p t : List Char) : startsWith p (p ++ t) = true := by
  induction p with
  | nil => rfl
  | cons c cs ih => simp [startsWith, ih]

lemma formatOne_text (r : SearchResult) :
    (formatOne r).text =
      if 500 < r.text.length then r.text.take 497 ++ ellipsis else r.text := rfl

/-- C8 counterexample: an input text of length 3 that already ends in
`"..."` is passed through unchanged, so the formatted text ends with the
ellipsis marker even though the input was not longer than 500 characters
and was not truncated. -/
theorem formatOne_ellipsis_counterexample :
    c8res.text.length ≤ 500 ∧ ¬ (500 < c8res.text.length) ∧
    pyEndsWith (formatOne c8res).text ellipsis = true := by decide

/-- C8 (amended): the formatted text always has length at most 500; when
the input text is longer than 500 characters it is replaced by its first
497 characters followed by the ellipsis marker (so it ends with the
marker), and otherwise it is passed through unchanged (and may then end
with an ellipsis only if the input already did). -/
theorem formatOne_text_truncation (r : SearchResult) :
    (formatOne r).text.length ≤ 500 ∧
    (500 < r.text.length →
      (formatOne r).text = r.text.take 497 ++ ellipsis ∧
      pyEndsWith (formatOne r).text ellipsis = true) ∧
    (r.text.length ≤ 500 → (formatOne r).text = r.text) := by
  by_cases h : 500 < r.text.length
  · rw [formatOne_text, if_pos h]
    refine ⟨?_, fun _ => ⟨rfl, ?_⟩, fun hle => absurd h (not_lt.mpr hle)⟩
    · rw [List.length_append, List.length_take]
      have hm : (497 : ℕ) ⊓ r.text.length = 497 := min_eq_left (by omega)
      rw [hm]
      simp [ellipsis]
    · unfold pyEndsWith
      rw [List.reverse_append]
      exact startsWith_append _ _
  · rw [formatOne_text, if_neg h]
    exact ⟨not_lt.mp h, fun hc => absurd hc h, fun _ => rfl⟩

set_option maxRecDepth 4096 in
theorem formatOne_text_truncation_witness :
    500 < c8long.text.length ∧
    (formatOne c8long).text = c8long.text.take 497 ++ ellipsis :=
  ⟨by decide, ((formatOne_text_truncation c8long).2.1 (by decide)).1⟩

/-! ## Temporary-file cleanup in `process_document` (claim C7) -/

/-- C7: on every execution path of `process_document` — whether the PDF
download fails, the OCR step raises, the persist step raises, or
everything succeeds — the temporary file no longer exists when
`process_document` returns. -/
theorem processDocument_temp_cleanup (env : DocEnv) :
    (processDocument env).temp_exists = false := by
  rcases env with ⟨uso, aro, so, hoa, cd, hpa, dok, ocr, ar⟩
  cases ocr <;> cases dok <;> cases hpa <;> cases ar <;> cases uso <;>
    cases aro <;> cases hoa <;>
    simp [processDocument, pdfBranch, downloadAndParseOcr]

/-! ## Per-document accounting in `process_library` (claim C9) -/

lemma libStep_sum (acc : Nat × List String) (d : LibDoc) :
    (libStep acc d).1 + (libStep acc d).2.length = acc.1 + acc.2.length + 1 := by
  rcases d with ⟨ti, out⟩
  rcases out with e | b
  · simp [libStep]
    omega
  · cases b <;> simp [libStep] <;> omega

lemma foldl_libStep_sum (ds : List LibDoc) :
    ∀ acc : Nat × List String,
      (ds.foldl libStep acc).1 + (ds.foldl libStep acc).2.length =
        acc.1 + acc.2.length + ds.length := by
  induction ds with
  | nil => intro acc; simp
  | cons d ds ih =>
    intro acc
    rw [List.foldl_cons, ih, libStep_sum]
    simp [List.length_cons]
    omega

/-- C9: `process_library` returns `(total, processed, errors)` with
`processed + errors.length = total`: each document within the (possibly
absent) limit contributes exactly one success or exactly one error
message, and processing continues past failing documents. -/
theorem processLibrary_accounting (docs : List LibDoc) (limit : Option Int) :
    (processLibrary docs limit).2.1 + (processLibrary docs limit).2.2.length =
      (processLibrary docs limit).1 := by
  unfold processLibrary
  dsimp only
  rw [foldl_libStep_sum]
  simp

/-! ## Failed cached-OCR download in `process_document` (claim C10) -/

/-- C10: when the cached-OCR artifact is found but its download fails,
`download_and_parse_ocr_attachment` returns the pair of empty strings
instead of raising; since the empty string is not the `None` sentinel,
`process_document` skips the PDF-extraction fallback and (when the
persist step does not raise) successfully indexes a single chunk whose
text is empty. -/
theorem processDocument_cached_failure (env : DocEnv) (e : String)
    (h1 : env.use_stored_ocr = true) (h2 : env.always_rerun_ocr = false)
    (h3 : env.has_ocr_attachment = true)
    (h4 : env.cached_download = Except.error e)
    (h5 : env.add_raises = false) :
    downloadAndParseOcr env.cached_download = ([], []) ∧
    (processDocument env).pdf_branch = false ∧
    (processDocument env).chunk_text = some [] ∧
    (processDocument env).success = true := by
  rcases env with ⟨uso, aro, so, hoa, cd, hpa, dok, ocr, ar⟩
  simp only at h1 h2 h3 h4 h5
  subst h1 h2 h3 h4 h5
  simp [processDocument, downloadAndParseOcr]

theorem processDocument_cached_failure_witness :
    (processDocument c10env).pdf_branch = false ∧
    (processDocument c10env).chunk_text = some [] ∧
    (processDocument c10env).success = true := by
  have h := processDocument_cached_failure c10env "io" rfl rfl rfl rfl rfl
  exact ⟨h.2.1, h.2.2.1, h.2.2.2⟩

/-! ## Round trip of the cached-OCR artifact (claim C4) -/

lemma splitOnce_cons (sep : List Char) (c : Char) (cs : List Char) :
    splitOnce sep (c :: cs) =
      if startsWith sep (c :: cs) then some ([], (c :: cs).drop sep.length)
      else (splitOnce sep cs).map (fun p => (c :: p.1, p.2)) := rfl

lemma startsWith_iff (p : List Char) :
    ∀ s, startsWith p s = true ↔ ∃ u, s = p ++ u := by
  induction p with
  | nil =>
    intro s
    simp [startsWith]
  | cons c cs ih =>
    intro s
    cases s with
    | nil => simp [startsWith]
    | cons d ds =>
      rw [startsWith]
      constructor
      · intro h
        have h' : c = d ∧ startsWith cs ds = true := by simpa using h
        rcases h' with ⟨hc, h2⟩
        rcases (ih ds).mp h2 with ⟨u, hu⟩
        exact ⟨u, by rw [hc, hu]; rfl⟩
      · rintro ⟨u, hu⟩
        rw [List.cons_append] at hu
        injection hu with h1 h2
        subst h1
        have h3 := (ih ds).mpr ⟨u, h2⟩
        simp [h3]

lemma splitOnce_self (sep rest : List Char) :
    splitOnce sep (sep ++ rest) = some ([], rest) := by
  have h1 : startsWith sep (sep ++ rest) = true := startsWith_append sep rest
  cases hs : sep ++ rest with
  | nil =>
    rcases List.append_eq_nil.mp hs with ⟨h2, h3⟩
    subst h2
    subst h3
    rfl
  | cons c cs =>
    rw [hs] at h1
    rw [splitOnce_cons, if_pos h1, ← hs, List.drop_left]

lemma splitOnce_append (sep rest : List Char) :
    ∀ pre : List Char,
      (∀ t : List Char, (∃ u, u ++ t = pre) → t ≠ [] →
        startsWith sep (t ++ (sep ++ rest)) = false) →
      splitOnce sep (pre ++ (sep ++ rest)) = some (pre, rest) := by
  intro pre
  induction pre with
  | nil =>
    intro _
    simpa using splitOnce_self sep rest
  | cons c pre' ih =>
    intro h
    have hfalse : startsWith sep ((c :: pre') ++ (sep ++ rest)) = false :=
      h (c :: pre') ⟨[], rfl⟩ (List.cons_ne_nil c pre')
    have hrec : splitOnce sep (pre' ++ (sep ++ rest)) = some (pre', rest) := by
      refine ih ?_
      intro t ht hne
      rcases ht with ⟨u, hu⟩
      exact h t ⟨c :: u, by rw [← hu]; rfl⟩ hne
    have hshape : (c :: pre') ++ (sep ++ rest) = c :: (pre' ++ (sep ++ rest)) :=
      List.cons_append c pre' (sep ++ rest)
    rw [hshape] at hfalse ⊢
    rw [splitOnce_cons, if_neg (by simp [hfalse]), hrec]
    rfl

lemma containsSeq_append_right (pat u t : List Char) (h : startsWith pat t = true) :
    containsSeq pat (u ++ t) = true := by
  induction u with
  | nil =>
    cases t with
    | nil => simpa [containsSeq] using h
    | cons c cs => simp [containsSeq, h]
  | cons d u' ih => simp [containsSeq, ih]

lemma no_straddle (rest pre : List Char)
    (hlast : ∃ q, pre = q ++ ['\n'])
    (hocc : containsSeq sepLine pre = false) :
    ∀ t : List Char, (∃ u, u ++ t = pre) → t ≠ [] →
      startsWith sepLine (t ++ (sepLine ++ rest)) = false := by
  intro t ht hne
  cases hx : startsWith sepLine (t ++ (sepLine ++ rest)) with
  | false => rfl
  | true =>
    exfalso
    rcases (startsWith_iff sepLine (t ++ (sepLine ++ rest))).mp hx with ⟨w, hw⟩
    have hlen : sepLine.length = 80 := by simp [sepLine]
    by_cases h80 : 80 ≤ t.length
    · have e1 : (t ++ (sepLine ++ rest)).take 80 = t.take 80 := by
        rw [List.take_append_eq_append_take]
        have h0 : 80 - t.length = 0 := by omega
        rw [h0]
        simp
      have e2 : (sepLine ++ w).take 80 = sepLine := by
        rw [List.take_append_eq_append_take, hlen]
        have hsep : sepLine = List.replicate 80 '-' := rfl
        rw [Nat.sub_self, List.take_zero, List.append_nil, hsep,
          List.take_replicate]
        rfl
      have e3 : t.take 80 = sepLine := by rw [← e1, hw, e2]
      have hsw2 : startsWith sepLine t = true := by
        rw [startsWith_iff]
        exact ⟨t.drop 80, by rw [← e3]; exact (List.take_append_drop 80 t).symm⟩
      rcases ht with ⟨u, hu⟩
      have hcc : containsSeq sepLine pre = true := by
        rw [← hu]
        exact containsSeq_append_right sepLine u t hsw2
      rw [hcc] at hocc
      exact Bool.noConfusion hocc
    · have e1 : (t ++ (sepLine ++ rest)).take t.length = t := by
        rw [List.take_append_eq_append_take]
        simp [List.take_length]
      have e2 : (sepLine ++ w).take t.length = List.replicate t.length '-' := by
        rw [List.take_append_eq_append_take, hlen]
        have h0 : t.length - 80 = 0 := by omega
        have hmin : t.length ⊓ 80 = t.length := min_eq_left (by omega)
        have hsep : sepLine = List.replicate 80 '-' := rfl
        rw [h0, List.take_zero, List.append_nil, hsep, List.take_replicate, hmin]
      have e3 : t = List.replicate t.length '-' := by
        conv_lhs => rw [← e1, hw, e2]
      rcases hlast with ⟨q, hq⟩
      rcases ht with ⟨u, hu⟩
      have hnl : t.getLast? = some '\n' := by
        have h1 : (u ++ t).getLast? = t.getLast?.or u.getLast? := List.getLast?_append
        rw [hu, hq] at h1
        have h2 : (q ++ ['\n']).getLast? = some '\n' := by
          rw [List.getLast?_append]
          rfl
        rw [h2] at h1
        cases hgl : t.getLast? with
        | none => exact absurd (List.getLast?_eq_none_iff.mp hgl) hne
        | some a =>
          rw [hgl, Option.or_some] at h1
          exact h1.symm
      obtain ⟨m, hm⟩ : ∃ m, t.length = m + 1 := by
        cases t with
        | nil => exact absurd rfl hne
        | cons a as => exact ⟨as.length, rfl⟩
      have hdash : t.getLast? = some '-' := by
        conv_lhs => rw [e3, hm]
        rw [List.replicate_succ', List.getLast?_append]
        rfl
      rw [hdash] at hnl
      exact absurd hnl (by decide)

lemma headerBlock_ends_newline (v p k : String) :
    ∃ q, headerBlock v p k = q ++ ['\n'] := by
  refine ⟨"Z-Cite OCR Text\n".data ++ "Version: ".data ++ v.data ++ ['\n'] ++
    "Processed: ".data ++ p.data ++ ['\n'] ++ "Document: ".data ++ k.data, ?_⟩
  simp [headerBlock, List.append_assoc]

lemma pyStrip_cons_nl (l : List Char) : pyStrip ('\n' :: l) = pyStrip l := by
  unfold pyStrip
  rw [List.dropWhile_cons]
  simp [show isPyWS '\x0a' = true from rfl]

/-- C4 counterexample: storing the text `" x "` and parsing the artifact
back yields `"x"`, not the original text — the parser strips leading and
trailing whitespace. -/
theorem storeOcr_roundtrip_counterexample :
    parseOcrText (storeArtifactContent "1" "p" "k" (' ' :: 'x' :: ' ' :: [])) ≠
      (' ' :: 'x' :: ' ' :: []) := by decide

/-- C4 (amended): storing a text as a cached-OCR artifact and parsing the
artifact back yields `strip(text)`, the original text with leading and
trailing whitespace removed — in particular the text is returned unchanged
whenever it neither starts nor ends with whitespace, including when it
contains an 80-dash line (the parser splits at the first separator, which
is always the header's), provided the header lines themselves contain no
80-dash run. -/
theorem storeOcr_roundtrip (v p k : String) (text : List Char)
    (h : containsSeq sepLine (headerBlock v p k) = false) :
    parseOcrText (storeArtifactContent v p k text) = pyStrip text := by
  have hsplit : splitOnce sepLine
      (headerBlock v p k ++ (sepLine ++ ('\n' :: '\n' :: text))) =
      some (headerBlock v p k, '\n' :: '\n' :: text) :=
    splitOnce_append sepLine ('\n' :: '\n' :: text) (headerBlock v p k)
      (no_straddle ('\n' :: '\n' :: text) (headerBlock v p k)
        (headerBlock_ends_newline v p k) h)
  have hshape : storeArtifactContent v p k text =
      headerBlock v p k ++ (sepLine ++ ('\n' :: '\n' :: text)) := by
    simp [storeArtifactContent, List.append_assoc]
  rw [parseOcrText, hshape, hsplit]
  dsimp only
  rw [pyStrip_cons_nl, pyStrip_cons_nl]

set_option maxRecDepth 8192 in
theorem storeOcr_roundtrip_witness :
    containsSeq sepLine (headerBlock "123" "2026-10-12T00:00:00" "KEY") = false ∧
    parseOcrText
      (storeArtifactContent "123" "2026-10-12T00:00:00" "KEY" c4text) = c4text := by
  constructor
  · decide
  · rw [storeOcr_roundtrip "123" "2026-10-12T00:00:00" "KEY" c4text (by decide)]
    decide

end ZCite
